import Mathlib

/-!
Verification development for the COLIN filing ledger engine
(`colin-api/src/colin_api/models/filing.py`).

The Code Registry (`Filing.FILING_TYPES`), its lookups
(`get_filing_type_code`, `_get_filing_type`, `is_supported_filing_sub_type`),
the filing-header dispatch (`_insert_filing`), the submission gate
(`add_filing`), the header-selection query (`_get_filing_event_info`),
the annual-report component-event resolution (`_get_ar_component_event`),
the director diff (`_process_directors`) and the name-translation diff
(`_process_name_translations`) are shallowly embedded below.  Store-level
primitives that live in other model files (`Party`, `Office`, `CorpName`,
`Business`) are either taken as parameters or modelled from the spec, and
are marked as such.
-/

namespace ColinFiling

/-! ## Entity type codes

Modelled from the spec: the per-entity-type dimension of the Code Registry
is keyed by the `Business.TypeCodes` enum (not under src/); each member is a
distinct short string tag.  The tags below name the cooperative, benefit,
BC, ULC and CCC companies and their continue-in variants, matching the keys
used by `Filing.FILING_TYPES` and `Filing.USERS`.
-/

def COOP : String := "CP"
def BCOMP : String := "BEN"
def BC_COMP : String := "BC"
def ULC_COMP : String := "ULC"
def CCC_COMP : String := "CC"
def BCOMP_CONTINUE_IN : String := "CBEN"
def CONTINUE_IN : String := "C"
def ULC_CONTINUE_IN : String := "CUL"
def CCC_CONTINUE_IN : String := "CCC"

/-- One entry of the Code Registry: the value dict of
`Filing.FILING_TYPES[name]`.  `typeCodeList` is the `'type_code_list'` key,
`corpTypeMap` the direct entity-type → code pairs, `subTypeProperty` the
optional `'sub_type_property'`, `subTypeList` the optional `'sub_type_list'`
and `subTypeMaps` the sub-type-keyed entity-type → code dicts. -/
structure FilingTypeInfo where
  typeCodeList : List String
  corpTypeMap : List (String × String)
  subTypeProperty : Option String := none
  subTypeList : List String := []
  subTypeMaps : List (String × List (String × String)) := []
deriving DecidableEq

/-- Association-list lookup, mirroring Python `dict.get` (first binding wins;
insertion order preserved). -/
def lookupA {α : Type} (m : List (String × α)) (k : String) : Option α :=
  (m.find? (fun p => p.1 == k)).map (fun p => p.2)

/-- `Filing.FILING_TYPES`, in source insertion order. -/
def FILING_TYPES : List (String × FilingTypeInfo) :=
  [ ("annualReport",
      { typeCodeList := ["OTANN", "ANNBC"],
        corpTypeMap := [(COOP, "OTANN"), (BCOMP, "ANNBC"), (BC_COMP, "ANNBC"),
                        (ULC_COMP, "ANNBC"), (CCC_COMP, "ANNBC")] }),
    ("changeOfDirectors",
      { typeCodeList := ["OTCDR", "NOCDR"],
        corpTypeMap := [(COOP, "OTCDR"), (BCOMP, "NOCDR"), (BC_COMP, "NOCDR"),
                        (ULC_COMP, "NOCDR"), (CCC_COMP, "NOCDR")] }),
    ("changeOfAddress",
      { typeCodeList := ["OTADD", "NOCAD"],
        corpTypeMap := [(COOP, "OTADD"), (BCOMP, "NOCAD"), (BC_COMP, "NOCAD"),
                        (ULC_COMP, "NOCAD"), (CCC_COMP, "NOCAD")] }),
    ("incorporationApplication",
      { typeCodeList := ["OTINC", "BEINC", "ICORP", "ICORU", "ICORC"],
        corpTypeMap := [(COOP, "OTINC"), (BCOMP, "BEINC"), (BC_COMP, "ICORP"),
                        (ULC_COMP, "ICORU"), (CCC_COMP, "ICORC")] }),
    ("continuationIn",
      { typeCodeList := ["CONTB", "CONTI", "CONTU", "CONTC"],
        corpTypeMap := [(BCOMP_CONTINUE_IN, "CONTB"), (CONTINUE_IN, "CONTI"),
                        (ULC_CONTINUE_IN, "CONTU"), (CCC_CONTINUE_IN, "CONTC")] }),
    ("conversion",
      { typeCodeList := ["CONVL"],
        corpTypeMap := [(BC_COMP, "CONVL"), (ULC_COMP, "CONVL"), (CCC_COMP, "CONVL")] }),
    ("alteration",
      { typeCodeList := ["NOALA", "NOALR"],
        corpTypeMap := [(BCOMP, "NOALR"), (BC_COMP, "NOALA"),
                        (ULC_COMP, "NOALA"), (CCC_COMP, "NOALA")] }),
    ("correction",
      { typeCodeList := ["CRBIN"],
        corpTypeMap := [(BCOMP, "CRBIN")] }),
    ("specialResolution",
      { typeCodeList := ["OTSPE"],
        corpTypeMap := [(COOP, "OTSPE")] }),
    ("amalgamationApplication",
      { typeCodeList := ["OTAMA",
                         "AMLRB", "AMALR", "AMLRU", "AMLRC",
                         "AMLHB", "AMALH", "AMLHU", "AMLHC",
                         "AMLVB", "AMALV", "AMLVU", "AMLVC"],
        corpTypeMap := [],
        subTypeProperty := some "type",
        subTypeList := ["regular", "horizontal", "vertical"],
        subTypeMaps :=
          [ ("regular",
              [(COOP, "OTAMA"), (BCOMP, "AMLRB"), (BC_COMP, "AMALR"),
               (ULC_COMP, "AMLRU"), (CCC_COMP, "AMLRC")]),
            ("horizontal",
              [(COOP, "OTAMA"), (BCOMP, "AMLHB"), (BC_COMP, "AMALH"),
               (ULC_COMP, "AMLHU"), (CCC_COMP, "AMLHC")]),
            ("vertical",
              [(COOP, "OTAMA"), (BCOMP, "AMLVB"), (BC_COMP, "AMALV"),
               (ULC_COMP, "AMLVU"), (CCC_COMP, "AMLVC")]) ] }),
    ("dissolved",
      { typeCodeList := ["OTDIS"],
        corpTypeMap := [(COOP, "OTDIS")] }),
    ("amendedAGM",
      { typeCodeList := ["OTCGM"],
        corpTypeMap := [(COOP, "OTCGM")] }),
    ("voluntaryDissolution",
      { typeCodeList := ["OTVDS"],
        corpTypeMap := [(COOP, "OTVDS")] }),
    ("dissolution",
      { typeCodeList := ["OTVDS", "ADVD2"],
        corpTypeMap := [],
        subTypeProperty := some "dissolutionType",
        subTypeList := ["voluntary", "administrative", "involuntary"],
        subTypeMaps :=
          [ ("voluntary",
              [(COOP, "OTVDS"), (BCOMP, "ADVD2"), (BC_COMP, "ADVD2"),
               (ULC_COMP, "ADVD2"), (CCC_COMP, "ADVD2")]) ] }),
    ("changeOfName",
      { typeCodeList := ["OTNCN"],
        corpTypeMap := [(COOP, "OTNCN")] }),
    ("restorationApplication",
      { typeCodeList := ["OTRES"],
        corpTypeMap := [(COOP, "OTRES")] }),
    ("amendedAnnualReport",
      { typeCodeList := ["OTAMR"],
        corpTypeMap := [(COOP, "OTAMR")] }),
    ("amendedChangeOfDirectors",
      { typeCodeList := ["OTADR"],
        corpTypeMap := [(COOP, "OTADR")] }),
    ("voluntaryLiquidation",
      { typeCodeList := ["OTVLQ"],
        corpTypeMap := [(COOP, "OTVLQ")] }),
    ("appointReceiver",
      { typeCodeList := ["OTNRC"],
        corpTypeMap := [(COOP, "OTNRC")] }),
    ("continuedOut",
      { typeCodeList := ["OTCON"],
        corpTypeMap := [(COOP, "OTCON")] }),
    ("transition",
      { typeCodeList := ["TRANS"],
        corpTypeMap := [(BC_COMP, "TRANS")] }),
    ("registrarsNotation",
      { typeCodeList := ["REGSN"],
        corpTypeMap := [(BC_COMP, "REGSN")] }),
    ("registrarsOrder",
      { typeCodeList := ["REGSO"],
        corpTypeMap := [(BC_COMP, "REGSO")] }),
    ("courtOrder",
      { typeCodeList := ["COURT"],
        corpTypeMap := [(BC_COMP, "COURT")] }) ]

/-- `Filing.FILING_TYPES.get(name)`. -/
def lookupFT (name : String) : Option FilingTypeInfo :=
  lookupA FILING_TYPES name

/-- The `'type_code_list'` of a filing-type name (empty when the name is
not registered). -/
def codesOf (name : String) : List String :=
  match lookupFT name with
  | some info => info.typeCodeList
  | none => []

/-- `Filing._get_filing_type`: reverse lookup from a legacy transaction code
to the first filing-type name (in registry insertion order) whose
`type_code_list` contains the code. -/
def getFilingType (filing_type_code : String) : Option String :=
  (FILING_TYPES.find? (fun p => p.2.typeCodeList.contains filing_type_code)).map
    (fun p => p.1)

/-- `Filing.get_filing_type_code`, embedded as in the source including its
use of `self.filing_sub_type` (`selfSubType`) rather than the locally
computed `sub_type` in the sub-typed branch: the code first computes
`sub_type = filing_sub_type or self.filing_sub_type` (here
`argSubType.orElse selfSubType`), and when that is set it performs
`FILING_TYPES.get(self.filing_type, {}).get(self.filing_sub_type, {})
.get(self.business.corp_type, None)`. -/
def get_filing_type_code (filingType : String) (selfSubType : Option String)
    (argSubType : Option String) (corpType : String) : Option String :=
  match argSubType.orElse (fun _ => selfSubType) with
  | some _ =>
      match lookupFT filingType with
      | none => none
      | some info =>
          match selfSubType with
          | none => none
          | some st =>
              match lookupA info.subTypeMaps st with
              | none => none
              | some m => lookupA m corpType
  | none =>
      match lookupFT filingType with
      | none => none
      | some info => lookupA info.corpTypeMap corpType

/-- `Filing.is_supported_filing_sub_type`: membership of the sub-type in the
filing type's `'sub_type_list'` (empty list when absent). -/
def is_supported_filing_sub_type (filingType : String) (filingSubType : String) : Bool :=
  (match lookupFT filingType with
   | some info => info.subTypeList
   | none => []).contains filingSubType

/-- The lookup the Code Registry actually registers for a (filing type,
sub-type, entity type) triple: `FILING_TYPES[filingType][subType][corpType]`.
This is the sub-type-aware lookup the spec describes
(`codeFor(filingType, entityType, subType)`); `get_filing_type_code`
is supposed to refine it when a sub-type applies. -/
def registeredSubTypeCode (filingType subType corpType : String) : Option String :=
  match lookupFT filingType with
  | none => none
  | some info =>
      match lookupA info.subTypeMaps subType with
      | none => none
      | some m => lookupA m corpType

/-! ## Filing-header column dispatch (`Filing._insert_filing`) -/

/-- The base columns every filing-header insert populates
(`INSERT INTO filing (event_id, filing_typ_cd, effective_dt ...`). -/
def baseFilingColumns : List String := ["event_id", "filing_typ_cd", "effective_dt"]

/-- The membership list of the large `elif` branch of `Filing._insert_filing`
that populates `arrangement_ind` and `court_order_num`. -/
def courtOrderColumnGroup : List String :=
  ["NOCAD", "CRBIN", "TRANS",
   "BEINC", "ICORP", "ICORU", "ICORC",
   "AMLRB", "AMALR", "AMLRU", "AMLRC",
   "AMLHB", "AMALH", "AMLHU", "AMLHC",
   "AMLVB", "AMALV", "AMLVU", "AMLVC",
   "CONTB", "CONTI", "CONTU", "CONTC",
   "NOALA", "NOALB", "NOALC", "NOALE", "NOALR", "NOALU",
   "REGSN", "REGSO", "COURT"]

/-- Every legacy code `Filing._insert_filing` dispatches on; any other code
falls to the final `else` and raises `InvalidFilingTypeException`. -/
def insertFilingDispatch : List String :=
  ["OTANN", "OTADD", "OTCDR", "OTINC", "ANNBC", "NOCDR"]
  ++ courtOrderColumnGroup ++ ["OTVDS", "ADVD2", "OTSPE"]

/-- `Filing._insert_filing`, reduced to the observable it is dispatched on:
the set (ordered list) of filing-header columns populated for a resolved
legacy transaction code.  The branch structure mirrors the source's
`if`/`elif` chain on `filing.get_filing_type_code()`; the final `else`
raises `InvalidFilingTypeException`. -/
def insertFilingColumns (filing_type_code : String) : Except String (List String) :=
  if filing_type_code ∈ ["OTANN"] then
    .ok (baseFilingColumns ++ ["period_end_dt", "agm_date", "arrangement_ind", "ods_typ_cd"])
  else if filing_type_code ∈ ["OTADD", "OTCDR", "OTINC"] then
    .ok (baseFilingColumns ++ ["arrangement_ind", "ods_typ_cd"])
  else if filing_type_code ∈ ["ANNBC"] then
    .ok (baseFilingColumns ++ ["period_end_dt", "arrangement_ind", "ods_typ_cd"])
  else if filing_type_code ∈ ["NOCDR"] then
    .ok (baseFilingColumns ++ ["change_dt", "arrangement_ind", "ods_typ_cd"])
  else if filing_type_code ∈ courtOrderColumnGroup then
    .ok (baseFilingColumns ++ ["arrangement_ind", "court_order_num", "ods_typ_cd"])
  else if filing_type_code ∈ ["OTVDS", "ADVD2", "OTSPE"] then
    .ok (baseFilingColumns ++ ["arrangement_ind", "ods_typ_cd"])
  else .error "InvalidFilingTypeException"

/-! ## Submission gate (`Filing.add_filing`) -/

/-- `Filing.USERS`: entity type → submitting user id. -/
def USERS : List (String × String) :=
  [(COOP, "COOPER"), (BCOMP, "BCOMPS"), (BC_COMP, "BCOMPS"),
   (ULC_COMP, "BCOMPS"), (CCC_COMP, "BCOMPS"), (BCOMP_CONTINUE_IN, "BCOMPS"),
   (CONTINUE_IN, "BCOMPS"), (ULC_CONTINUE_IN, "BCOMPS"), (CCC_CONTINUE_IN, "BCOMPS")]

/-- The members of the `Business.TypeCodes` enum (the keys of `USERS`):
every filing's entity carries one of these types. -/
def CORP_TYPE_CODES : List String :=
  [COOP, BCOMP, BC_COMP, ULC_COMP, CCC_COMP, BCOMP_CONTINUE_IN,
   CONTINUE_IN, ULC_CONTINUE_IN, CCC_CONTINUE_IN]

/-- The fixed allow-list of submittable filing types checked at the top of
`Filing.add_filing`. -/
def SUBMITTABLE_FILING_TYPES : List String :=
  ["alteration", "amalgamationApplication", "annualReport", "changeOfAddress",
   "changeOfDirectors", "continuationIn", "correction", "courtOrder",
   "dissolution", "incorporationApplication", "registrarsNotation",
   "registrarsOrder", "specialResolution", "transition"]

/-- Ledger writes performed by the opening steps of `Filing.add_filing`. -/
inductive LedgerOp where
  | allocEvent (corpNum : String)
  | insertUser
  | insertFiling (columns : List String)
deriving DecidableEq

/-- The precondition gate and opening write sequence of `Filing.add_filing`:
the filing-type allow-list check, the sub-type support check, the
`Filing.USERS[legal_type]` lookup, then event allocation
(`_get_event_id`), `_insert_filing_user` and `_insert_filing` (which itself
re-dispatches on the resolved legacy code).  The per-filing-type side
effects that follow are beyond what the gate claims require and are elided.
Returns the writes performed so far together with the outcome. -/
def addFilingSteps (filingType : String) (filingSubType : Option String)
    (corpType corpNum : String) : List LedgerOp × Except String Unit :=
  if filingType ∉ SUBMITTABLE_FILING_TYPES then
    ([], .error "InvalidFilingTypeException")
  else if (match filingSubType with
           | some st => !(is_supported_filing_sub_type filingType st)
           | none => false) then
    ([], .error "InvalidFilingTypeException")
  else
    match lookupA USERS corpType with
    | none => ([], .error "KeyError")
    | some _ =>
        match get_filing_type_code filingType filingSubType none corpType with
        | none =>
            ([LedgerOp.allocEvent corpNum, LedgerOp.insertUser],
             .error "InvalidFilingTypeException")
        | some code =>
            match insertFilingColumns code with
            | .error e => ([LedgerOp.allocEvent corpNum, LedgerOp.insertUser], .error e)
            | .ok cols =>
                ([LedgerOp.allocEvent corpNum, LedgerOp.insertUser,
                  LedgerOp.insertFiling cols], .ok ())

/-! ## Name-translation diff (`Filing._process_name_translations`) -/

/-- Store-level operations on corp names, recorded as a trace. -/
inductive NameOp where
  | createTranslation (eventId : Nat) (name : String)
  | endName (eventId : Nat) (name : String)
deriving DecidableEq

/-- Modelled from the spec: `CorpName.create_translations` (the `CorpName`
model is not under src/) creates, at the new event, each incoming
translation that is absent from the prior current set; translations present
in both sets are left untouched. -/
def create_translations (eventId : Nat) (nameTranslations oldTranslations : List String) :
    List NameOp :=
  (nameTranslations.filter (fun n => !(oldTranslations.contains n))).map
    (NameOp.createTranslation eventId)

/-- `Filing._process_name_translations`: the incoming set is the filing
body's `nameTranslations` (names only) and `oldTranslations` the current
`TR`-type corp names.  The source guards the whole block with the
truthiness of the incoming list, so an empty incoming set performs no
operation; otherwise it calls `CorpName.create_translations` and then ends
every prior current translation absent from the incoming set. -/
def process_name_translations (eventId : Nat)
    (nameTranslations oldTranslations : List String) : List NameOp :=
  match nameTranslations with
  | [] => []
  | _ =>
      create_translations eventId nameTranslations oldTranslations
      ++ (oldTranslations.filter (fun o => !(nameTranslations.contains o))).map
          (NameOp.endName eventId)

/-! ## Director diff (`Filing._process_directors`) -/

/-- The officer block of an incoming director entry.  `oldKey` stands for
the old name/address values the compare predicate matches on; `newKey` for
the new values a created row receives. -/
structure Officer where
  oldKey : String
  newKey : String
deriving DecidableEq

/-- An incoming director entry: its officer block and its action set. -/
structure Director where
  officer : Officer
  actions : List String
deriving DecidableEq

/-- A current corp-party row, reduced to the name/address key the compare
predicate inspects. -/
structure Party where
  name : String
deriving DecidableEq

/-- Modelled from the spec: `Party.compare_parties` (the `Party` model is
not under src/) is a name/address equality check of a current party against
the *old* officer values. -/
def compareParties (p : Party) (o : Officer) : Bool :=
  p.name == o.oldKey

/-- Modelled from the spec: `Party.create_new_corp_party` inserts a new
current row carrying the incoming (new) values. -/
def partyOf (d : Director) : Party := ⟨d.officer.newKey⟩

/-- Store-level operations on corp parties, recorded as a trace. -/
inductive DirOp where
  | createParty (eventId : Nat) (d : Director)
  | endByName (eventId : Nat) (d : Director)
deriving DecidableEq

/-- `GenericException` with its HTTP status code. -/
inductive DirErr where
  | generic (officer : Officer) (statusCode : Nat)
deriving DecidableEq

/-- Accumulated state while processing director entries: the current party
rows (`Party.get_current`), the trace of store calls made so far, and the
`changed_dirs` staging list. -/
structure DirAcc where
  parties : List Party
  ops : List DirOp
  changed : List Director
deriving DecidableEq

/-- Whether an entry carries a `nameChanged` or `addressChanged` action. -/
def hasChangedAction (d : Director) : Bool :=
  d.actions.contains "nameChanged" || d.actions.contains "addressChanged"

/-- The current-party rows visible when a changed entry is matched: the
rows current on entry to the step, plus the row just created when the entry
also carries `appointed` (the source creates it before fetching
`Party.get_current`). -/
def dirSnapshot (acc : DirAcc) (d : Director) : List Party :=
  if d.actions.contains "appointed" then acc.parties ++ [partyOf d] else acc.parties

/-- One iteration of the source's inner loop over `current_parties` for a
changed entry: on a compare match it ends the director by name, stages the
entry in `changed_dirs`, ends the director by name again (the duplicated
call of the source), and records that a match was found. -/
def dirMatchStep (eventId : Nat) (d : Director) (st : DirAcc × Bool) (p : Party) :
    DirAcc × Bool :=
  if compareParties p d.officer then
    ({ parties := st.1.parties.filter (fun q => !(compareParties q d.officer)),
       ops := st.1.ops ++ [DirOp.endByName eventId d, DirOp.endByName eventId d],
       changed := st.1.changed ++ [d] }, true)
  else st

/-- The `appointed` branch of the entry: create a new current row before
the rest of the entry is examined. -/
def dirAppointed (eventId : Nat) (acc : DirAcc) (d : Director) : DirAcc :=
  if d.actions.contains "appointed" then
    { acc with ops := acc.ops ++ [DirOp.createParty eventId d],
               parties := acc.parties ++ [partyOf d] }
  else acc

/-- One director entry of `Filing._process_directors`: the `appointed`
branch creates a row; the `ceased`-without-change branch ends by name; the
`nameChanged`/`addressChanged` branch scans the current parties with the
compare predicate and raises `GenericException` (HTTP 404) when no match is
found. -/
def dirStep (eventId : Nat) (acc0 : DirAcc) (d : Director) : Except DirErr DirAcc :=
  let acc := dirAppointed eventId acc0 d
  if d.actions.contains "ceased" && !(hasChangedAction d) then
    .ok { acc with ops := acc.ops ++ [DirOp.endByName eventId d],
                   parties := acc.parties.filter (fun q => !(compareParties q d.officer)) }
  else if hasChangedAction d then
    match acc.parties.foldl (dirMatchStep eventId d) (acc, false) with
    | (acc2, true) => .ok acc2
    | (_, false) => .error (DirErr.generic d.officer 404)
  else .ok acc

/-- The source's loop over all director entries. -/
def dirLoop (eventId : Nat) (acc : DirAcc) : List Director → Except DirErr DirAcc
  | [] => .ok acc
  | d :: rest =>
      match dirStep eventId acc d with
      | .error e => .error e
      | .ok acc2 => dirLoop eventId acc2 rest

/-- The slice of the in-memory filing aggregate `Filing._process_directors`
consumes. -/
structure DirFiling where
  filingType : String
  eventId : Nat
  directors : List Director
deriving DecidableEq

/-- `Filing._process_directors`: skipped for annual reports and for an
empty/absent `directors` component; otherwise runs the entry loop and then
re-creates every staged changed entry as a new row, returning the store-call
trace and the ledger text. -/
def processDirectors (f : DirFiling) (currentParties : List Party) :
    Except DirErr (List DirOp × String) :=
  if f.filingType ≠ "annualReport" ∧ f.directors ≠ [] then
    match dirLoop f.eventId ⟨currentParties, [], []⟩ f.directors with
    | .error e => .error e
    | .ok acc =>
        .ok (acc.ops ++ acc.changed.map (fun d => DirOp.createParty f.eventId d),
             "Director change.")
  else .ok ([], "")

/-! ## Annual-report component-event resolution
(`Filing._get_ar_component_event` and the offices/directors sections of
`Filing.get_filing`) -/

/-- One row of `Filing._get_events`: an event id with its timestamp
(timestamps as naturals; `datetime.fromtimestamp(0)` is `0`). -/
structure EventRec where
  id : Nat
  date : Nat
deriving DecidableEq

/-- The loop body of `Filing._get_ar_component_event`: keep the event whose
date is at or before the annual report's timestamp and strictly after the
best date seen so far. -/
def arEventFold (arTs : Nat) (acc : Option Nat × Nat) (e : EventRec) : Option Nat × Nat :=
  if arTs ≥ e.date ∧ e.date > acc.2 then (some e.id, e.date) else acc

/-- `Filing._get_ar_component_event`: the latest component-change event at
or before the annual report's own event timestamp, defaulting to the annual
report's own event id when none qualifies. -/
def getArComponentEvent (events : List EventRec) (arTs arEventId : Nat) : Nat :=
  match (events.foldl (arEventFold arTs) (none, 0)).1 with
  | some i => i
  | none => arEventId

/-- The named component-missing errors of `Filing.get_filing`. -/
inductive ComponentErr where
  | officeNotFound
  | partiesNotFound
deriving DecidableEq

/-- The offices/directors section of `Filing.get_filing`: for an annual
report the read event is resolved through `getArComponentEvent` over the
historical change events of the matching code (OTADD for offices, OTCDR for
directors); a non-annual-report filing with no rows raises the component's
not-found error; an annual report with no rows falls back to current state
and marks the filing paper-only.  `byEvent` and `current` stand for the
store reads (`get_by_event` / `get_current`, not under src/); the returned
flag is `filing.paper_only`. -/
def resolveArComponent {α : Type} (isAnnualReport : Bool) (events : List EventRec)
    (arTs arEventId : Nat) (byEvent : Nat → List α) (current : List α)
    (err : ComponentErr) : Except ComponentErr (List α × Bool) :=
  let eventId := if isAnnualReport then getArComponentEvent events arTs arEventId else arEventId
  match byEvent eventId with
  | [] => if !isAnnualReport then .error err else .ok (current, true)
  | l => .ok (l, false)

/-! ## Header selection (`Filing._get_filing_event_info`) -/

/-- One row of the `event ⋈ filing ⟕ filing_user` join the header query
reads.  `period_end_year` stands for `extract(year from PERIOD_END_DT)`. -/
structure HeaderRow where
  event_id : Nat
  event_timestmp : Nat
  first_nme : Option String
  middle_nme : Option String
  last_nme : Option String
  email_addr : Option String
  corp_num : String
  filing_typ_cd : String
  period_end_year : Option Nat
deriving DecidableEq

/-- The selector `_get_filing_event_info` builds its WHERE clause from: an
explicit event id, or else the resolved legacy code of the (filing type,
entity) tuple; plus the optional corp-number and year filters. -/
structure HeaderSelector where
  event_id : Option Nat
  filing_type_cd : Option String
  corp_num : Option String
  year : Option Nat
deriving DecidableEq

/-- The WHERE clause of the header query: event-id equality when an event id
is given, else legacy-code equality (comparison with an unresolved `NULL`
code matches nothing); conjoined with the optional corp-number and year
filters. -/
def rowMatches (sel : HeaderSelector) (r : HeaderRow) : Bool :=
  (match sel.event_id with
   | some e => r.event_id == e
   | none =>
       match sel.filing_type_cd with
       | some cd => r.filing_typ_cd == cd
       | none => false)
  && (match sel.corp_num with
      | some c => r.corp_num == c
      | none => true)
  && (match sel.year with
      | some y => r.period_end_year == some y
      | none => true)

/-- One comparison step of the most-recent-row selection. -/
def mostRecentStep (acc : Option HeaderRow) (r : HeaderRow) : Option HeaderRow :=
  match acc with
  | none => some r
  | some b => if r.event_timestmp > b.event_timestmp then some r else acc

/-- `ORDER BY EVENT_TIMESTMP desc` followed by `fetchone`: the first row of
maximal event timestamp. -/
def selectMostRecent (rows : List HeaderRow) : Option HeaderRow :=
  rows.foldl mostRecentStep none

/-- The derived header fields `_get_filing_event_info` returns. -/
structure FilingEventInfo where
  event_id : Nat
  certifiedBy : String
  email : String
  filing_type_code : String
  event_timestmp : Nat
deriving DecidableEq

/-- `' '.join(filter(None, [first_nme, middle_nme, last_nme]))`: drop the
absent and blank parts, join the rest with single spaces. -/
def joinUserName (r : HeaderRow) : String :=
  " ".intercalate (([r.first_nme, r.middle_nme, r.last_nme].filterMap id).filter
    (fun s => !s.isEmpty))

/-- The blank-safe derivation of certifier and email: an empty joined user
name becomes `N/A`; an absent email becomes the empty string. -/
def deriveEventInfo (r : HeaderRow) : FilingEventInfo :=
  let nm := joinUserName r
  { event_id := r.event_id,
    certifiedBy := if nm.isEmpty then "N/A" else nm,
    email := match r.email_addr with
             | none => ""
             | some e => e,
    filing_type_code := r.filing_typ_cd,
    event_timestmp := r.event_timestmp }

/-- `Filing._get_filing_event_info` over an in-memory table of header rows:
filter by the WHERE clause, take the most recent row, raise
`FilingNotFoundException` when there is none, and derive the blank-safe
fields. -/
def getFilingEventInfo (db : List HeaderRow) (sel : HeaderSelector) :
    Except String FilingEventInfo :=
  match selectMostRecent (db.filter (rowMatches sel)) with
  | none => .error "FilingNotFoundException"
  | some r => .ok (deriveEventInfo r)

/-! ## Claim C1 — code uniqueness across the registry -/

/-- Claim C1, counterexample: the legacy code `OTVDS` belongs to two
distinct filing-type names, `voluntaryDissolution` and `dissolution`, so the
`type_code_list` entries of distinct filing types are not disjoint and no
collision is rejected at initialization (the registry is a plain literal
containing this collision). -/
theorem c1_counterexample :
    ("voluntaryDissolution" ≠ "dissolution")
    ∧ (codesOf "voluntaryDissolution").contains "OTVDS" = true
    ∧ (codesOf "dissolution").contains "OTVDS" = true := by
  decide

/-- Claim C1, amended: every legacy code other than `OTVDS` belongs to at
most one filing-type name; `OTVDS` is shared by `voluntaryDissolution` and
`dissolution`, and the reverse lookup `_get_filing_type` is still a function
because it returns the first filing-type name in registry order containing
the code (`OTVDS` resolves to `voluntaryDissolution`); no initialization
check exists. -/
theorem c1_code_registry_amended :
    (FILING_TYPES.all (fun p => FILING_TYPES.all (fun q =>
        p.1 == q.1 || p.2.typeCodeList.all (fun c =>
          !(q.2.typeCodeList.contains c) || c == "OTVDS")))) = true
    ∧ getFilingType "OTVDS" = some "voluntaryDissolution" := by
  decide

/-! ## Claim C8 — sub-type-aware code lookup -/

/-- Claim C8: `get_filing_type_code` is claimed to honour a sub-type passed
as the explicit argument, but the source looks up `self.filing_sub_type`
instead of the locally resolved `sub_type`; with the sub-type supplied only
as the argument (`dissolution`/`voluntary` for a BC company) the lookup
returns `none` although the registry registers `ADVD2` for exactly that
triple, while the sub-type taken from the filing itself does resolve. -/
theorem c8_get_filing_type_code_bug :
    get_filing_type_code "dissolution" none (some "voluntary") BC_COMP = none
    ∧ registeredSubTypeCode "dissolution" "voluntary" BC_COMP = some "ADVD2"
    ∧ get_filing_type_code "dissolution" (some "voluntary") none BC_COMP = some "ADVD2" := by
  decide

/-! ## Claim C9 — dissolution sub-type support vs. code map -/

/-- Claim C9: `is_supported_filing_sub_type` accepts all three dissolution
sub-types, but the dissolution registry entry carries a per-entity-type code
map only for `voluntary`, so for every entity type an administrative or
involuntary dissolution resolves to no legacy code even though it passes the
sub-type precondition of `add_filing`, while `voluntary` does resolve for
some entity type. -/
theorem c9_dissolution_sub_type_gap :
    (["voluntary", "administrative", "involuntary"].all
        (fun s => is_supported_filing_sub_type "dissolution" s)) = true
    ∧ (∀ corpType : String,
        get_filing_type_code "dissolution" (some "administrative") none corpType = none)
    ∧ (∀ corpType : String,
        get_filing_type_code "dissolution" (some "involuntary") none corpType = none)
    ∧ get_filing_type_code "dissolution" (some "voluntary") none BCOMP = some "ADVD2" := by
  refine ⟨by decide, fun corpType => ?_, fun corpType => ?_, by decide⟩ <;> rfl

/-! ## Claim C4 — name-translation diff -/

/-- Claim C4, counterexample: with current translations containing `Beta`
and an *empty* incoming set, the source performs no operation at all — in
particular `Beta` is not ended — because the whole block is guarded by the
truthiness of the incoming list. -/
theorem c4_counterexample :
    process_name_translations 7 [] ["Beta"] = []
    ∧ NameOp.endName 7 "Beta" ∉ process_name_translations 7 [] ["Beta"] := by
  decide

/-- Claim C4, amended: for every *non-empty* incoming set, each incoming
translation absent from the prior current set is created at the new event,
each prior current translation absent from the incoming set is ended at the
new event, and a translation present in both sets is neither created nor
ended; an empty (or absent) incoming set leaves the translations untouched. -/
theorem c4_translation_diff_amended (eventId : Nat) (incoming old : List String)
    (hne : incoming ≠ []) :
    (∀ n ∈ incoming, n ∉ old →
        NameOp.createTranslation eventId n ∈ process_name_translations eventId incoming old)
    ∧ (∀ o ∈ old, o ∉ incoming →
        NameOp.endName eventId o ∈ process_name_translations eventId incoming old)
    ∧ (∀ n, n ∈ incoming → n ∈ old →
        NameOp.createTranslation eventId n ∉ process_name_translations eventId incoming old
        ∧ NameOp.endName eventId n ∉ process_name_translations eventId incoming old)
    ∧ process_name_translations eventId [] old = [] := by
  obtain ⟨a, as, rfl⟩ : ∃ a as, incoming = a :: as := by
    cases incoming with
    | nil => exact absurd rfl hne
    | cons a as => exact ⟨a, as, rfl⟩
  refine ⟨?_, ?_, ?_, rfl⟩
  · intro n hn hnot
    simp only [process_name_translations, create_translations, List.mem_append,
      List.mem_map, List.mem_filter]
    exact Or.inl ⟨n, ⟨hn, by simpa using hnot⟩, rfl⟩
  · intro o ho hnot
    simp only [process_name_translations, create_translations, List.mem_append,
      List.mem_map, List.mem_filter]
    exact Or.inr ⟨o, ⟨ho, by simpa using hnot⟩, rfl⟩
  · intro n hn hold
    constructor
    · intro hmem
      simp only [process_name_translations, create_translations, List.mem_append,
        List.mem_map, List.mem_filter] at hmem
      rcases hmem with ⟨m, ⟨_, hmf⟩, heq⟩ | ⟨m, _, heq⟩
      · cases heq
        simp at hmf
        exact hmf hold
      · cases heq
    · intro hmem
      simp only [process_name_translations, create_translations, List.mem_append,
        List.mem_map, List.mem_filter] at hmem
      rcases hmem with ⟨m, _, heq⟩ | ⟨m, ⟨_, hmf⟩, heq⟩
      · cases heq
      · cases heq
        simp at hmf
        rcases List.mem_cons.mp hn with rfl | h2
        · exact hmf.1 rfl
        · exact hmf.2 h2

/-- Claim C4, witness: current translations `Alpha`, `Beta`; incoming
`Alpha`, `Gamma` — `Gamma` is created, `Beta` is ended, `Alpha` is neither
created nor ended. -/
theorem c4_translation_diff_witness :
    NameOp.createTranslation 7 "Gamma"
        ∈ process_name_translations 7 ["Alpha", "Gamma"] ["Alpha", "Beta"]
    ∧ NameOp.endName 7 "Beta"
        ∈ process_name_translations 7 ["Alpha", "Gamma"] ["Alpha", "Beta"]
    ∧ NameOp.createTranslation 7 "Alpha"
        ∉ process_name_translations 7 ["Alpha", "Gamma"] ["Alpha", "Beta"]
    ∧ NameOp.endName 7 "Alpha"
        ∉ process_name_translations 7 ["Alpha", "Gamma"] ["Alpha", "Beta"] := by
  have h := c4_translation_diff_amended 7 ["Alpha", "Gamma"] ["Alpha", "Beta"] (by decide)
  have huntouched := h.2.2.1 "Alpha" (by decide) (by decide)
  exact ⟨h.1 "Gamma" (by decide) (by decide), h.2.1 "Beta" (by decide) (by decide),
    huntouched.1, huntouched.2⟩

/-! ## Claim C5 — submission gate of `add_filing` -/

/-- Claim C5: `add_filing` fails with the unsupported-filing-type error and
performs no ledger write whenever the filing type is outside the fixed
allow-list, or a sub-type is set that `is_supported_filing_sub_type` does
not support; a filing passing both checks (with an entity type from the
type-codes enum) proceeds to event allocation as its first ledger write. -/
theorem c5_add_filing_gate (filingType : String) (filingSubType : Option String)
    (corpType corpNum : String) :
    (filingType ∉ SUBMITTABLE_FILING_TYPES →
        addFilingSteps filingType filingSubType corpType corpNum
          = ([], Except.error "InvalidFilingTypeException"))
    ∧ (∀ st, filingSubType = some st → is_supported_filing_sub_type filingType st = false →
        addFilingSteps filingType filingSubType corpType corpNum
          = ([], Except.error "InvalidFilingTypeException"))
    ∧ (filingType ∈ SUBMITTABLE_FILING_TYPES →
        (∀ st, filingSubType = some st → is_supported_filing_sub_type filingType st = true) →
        corpType ∈ CORP_TYPE_CODES →
        ∃ rest, (addFilingSteps filingType filingSubType corpType corpNum).1
          = LedgerOp.allocEvent corpNum :: rest) := by
  refine ⟨?_, ?_, ?_⟩
  · intro h
    simp only [addFilingSteps, if_pos h]
  · intro st hst hsup
    subst hst
    by_cases hft : filingType ∈ SUBMITTABLE_FILING_TYPES
    · have hcond : (!(is_supported_filing_sub_type filingType st)) = true := by
        simp [hsup]
      simp only [addFilingSteps, if_neg (not_not_intro hft)]
      rw [if_pos hcond]
    · simp only [addFilingSteps, if_pos hft]
  · intro hft hsub hct
    obtain ⟨u, hu⟩ : ∃ u, lookupA USERS corpType = some u := by
      fin_cases hct <;> exact ⟨_, rfl⟩
    cases hst : filingSubType with
    | none =>
        simp only [addFilingSteps, if_neg (not_not_intro hft)]
        rw [if_neg (by simp), hu]
        cases hcode : get_filing_type_code filingType none none corpType with
        | none => exact ⟨[LedgerOp.insertUser], rfl⟩
        | some code =>
            dsimp only
            cases hcols : insertFilingColumns code with
            | error e => exact ⟨[LedgerOp.insertUser], rfl⟩
            | ok cols => exact ⟨[LedgerOp.insertUser, LedgerOp.insertFiling cols], rfl⟩
    | some st =>
        have hsup := hsub st hst
        simp only [addFilingSteps, if_neg (not_not_intro hft)]
        rw [if_neg (by simp [hsup]), hu]
        cases hcode : get_filing_type_code filingType (some st) none corpType with
        | none => exact ⟨[LedgerOp.insertUser], rfl⟩
        | some code =>
            dsimp only
            cases hcols : insertFilingColumns code with
            | error e => exact ⟨[LedgerOp.insertUser], rfl⟩
            | ok cols => exact ⟨[LedgerOp.insertUser, LedgerOp.insertFiling cols], rfl⟩

/-- Claim C5, witness: an unknown filing type and an unsupported dissolution
sub-type are both rejected with no ledger write; a plain annual report for a
cooperative proceeds to event allocation. -/
theorem c5_add_filing_gate_witness :
    addFilingSteps "flibber" none "CP" "CP0001"
        = ([], Except.error "InvalidFilingTypeException")
    ∧ addFilingSteps "dissolution" (some "fake") "BC" "1234567"
        = ([], Except.error "InvalidFilingTypeException")
    ∧ ∃ rest, (addFilingSteps "annualReport" none "CP" "CP0001").1
        = LedgerOp.allocEvent "CP0001" :: rest := by
  refine ⟨(c5_add_filing_gate "flibber" none "CP" "CP0001").1 (by decide),
    (c5_add_filing_gate "dissolution" (some "fake") "BC" "1234567").2.1 "fake" rfl (by decide),
    (c5_add_filing_gate "annualReport" none "CP" "CP0001").2.2 (by decide)
      (fun st h => Option.noConfusion h) (by decide)⟩

/-! ## Claim C6 — header columns determined by the legacy code -/

/-- Claim C6: the filing-header column set is a fixed dispatch on the
resolved legacy transaction code — `OTANN` adds `period_end_dt` and
`agm_date`, `ANNBC` adds `period_end_dt`, `NOCDR` adds `change_dt`, and the
registrar/court-order group adds `arrangement_ind` and `court_order_num` —
it is not determined by the filing-type name (the single name `annualReport`
resolves to `OTANN` or `ANNBC` with different column sets depending on
entity type), and every code outside the dispatch table raises
`InvalidFilingTypeException`. -/
theorem c6_insert_filing_dispatch (code : String) :
    insertFilingColumns "OTANN"
      = Except.ok (baseFilingColumns
          ++ ["period_end_dt", "agm_date", "arrangement_ind", "ods_typ_cd"])
    ∧ insertFilingColumns "ANNBC"
      = Except.ok (baseFilingColumns ++ ["period_end_dt", "arrangement_ind", "ods_typ_cd"])
    ∧ insertFilingColumns "NOCDR"
      = Except.ok (baseFilingColumns ++ ["change_dt", "arrangement_ind", "ods_typ_cd"])
    ∧ (∀ c ∈ courtOrderColumnGroup, insertFilingColumns c
        = Except.ok (baseFilingColumns
            ++ ["arrangement_ind", "court_order_num", "ods_typ_cd"]))
    ∧ get_filing_type_code "annualReport" none none COOP = some "OTANN"
    ∧ get_filing_type_code "annualReport" none none BCOMP = some "ANNBC"
    ∧ (code ∉ insertFilingDispatch →
        insertFilingColumns code = Except.error "InvalidFilingTypeException") := by
  refine ⟨rfl, rfl, rfl, by intro c hc; fin_cases hc <;> rfl, rfl, rfl, ?_⟩
  intro h
  simp only [insertFilingDispatch, List.append_assoc, List.mem_append, not_or] at h
  obtain ⟨h1, h2, h3⟩ := h
  simp only [List.mem_cons, List.not_mem_nil, or_false, not_or] at h1 h3
  simp only [insertFilingColumns]
  rw [if_neg (by simp [h1.1]), if_neg (by simp [h1.2.1, h1.2.2.1, h1.2.2.2.1]),
    if_neg (by simp [h1.2.2.2.2.1]), if_neg (by simp [h1.2.2.2.2.2]),
    if_neg h2, if_neg (by simp [h3.1, h3.2.1, h3.2.2])]

/-- Claim C6, witness: the unknown code `XXXXX` is outside the dispatch
table and is rejected. -/
theorem c6_insert_filing_dispatch_witness :
    insertFilingColumns "XXXXX" = Except.error "InvalidFilingTypeException" :=
  (c6_insert_filing_dispatch "XXXXX").2.2.2.2.2.2 (by decide)

/-! ## Claim C7 — header selection and blank-safe derivation -/

/-- Invariant of the most-recent-row fold: a returned row is either the seed
or comes from the list, and its timestamp dominates the seed's and every
listed row's timestamp. -/
lemma mostRecent_fold_spec (rows : List HeaderRow) (acc : Option HeaderRow)
    (r : HeaderRow) (h : rows.foldl mostRecentStep acc = some r) :
    (acc = some r ∨ r ∈ rows)
    ∧ (∀ b, acc = some b → b.event_timestmp ≤ r.event_timestmp)
    ∧ (∀ b ∈ rows, b.event_timestmp ≤ r.event_timestmp) := by
  induction rows generalizing acc with
  | nil =>
      simp only [List.foldl_nil] at h
      refine ⟨Or.inl h, ?_, by simp⟩
      intro b hb
      rw [h] at hb
      cases hb
      exact le_refl _
  | cons x xs ih =>
      simp only [List.foldl_cons] at h
      obtain ⟨h1, h2, h3⟩ := ih (mostRecentStep acc x) h
      have hx : x.event_timestmp ≤ r.event_timestmp := by
        cases acc with
        | none => exact h2 x rfl
        | some a =>
            by_cases hgt : x.event_timestmp > a.event_timestmp
            · exact h2 x (by simp [mostRecentStep, hgt])
            · exact le_trans (le_of_not_lt hgt) (h2 a (by simp [mostRecentStep, hgt]))
      have hmem : acc = some r ∨ r ∈ x :: xs := by
        cases acc with
        | none =>
            rcases h1 with heq | hmem2
            · have h0 : mostRecentStep none x = some x := rfl
              rw [h0] at heq
              cases heq
              exact Or.inr (List.mem_cons_self _ _)
            · exact Or.inr (List.mem_cons_of_mem _ hmem2)
        | some a =>
            by_cases hgt : x.event_timestmp > a.event_timestmp
            · rcases h1 with heq | hmem2
              · have h0 : mostRecentStep (some a) x = some x := by
                  simp [mostRecentStep, hgt]
                rw [h0] at heq
                cases heq
                exact Or.inr (List.mem_cons_self _ _)
              · exact Or.inr (List.mem_cons_of_mem _ hmem2)
            · rcases h1 with heq | hmem2
              · have h0 : mostRecentStep (some a) x = some a := by
                  simp [mostRecentStep, hgt]
                rw [h0] at heq
                cases heq
                exact Or.inl rfl
              · exact Or.inr (List.mem_cons_of_mem _ hmem2)
      have hacc2 : ∀ b, acc = some b → b.event_timestmp ≤ r.event_timestmp := by
        intro b hb
        subst hb
        by_cases hgt : x.event_timestmp > b.event_timestmp
        · exact le_trans (le_of_lt hgt) (h2 x (by simp [mostRecentStep, hgt]))
        · exact h2 b (by simp [mostRecentStep, hgt])
      refine ⟨hmem, hacc2, ?_⟩
      intro b hb
      rcases List.mem_cons.mp hb with rfl | hb2
      · exact hx
      · exact h3 b hb2

/-- Claim C7: with a tuple selector (no event id) the header query returns
the most recent matching row (timestamp-maximal among matches) and derives
the blank-safe fields from it; no matching row raises
`FilingNotFoundException`; with an explicit event id the returned header is
that event's; an unnamed certifier derives to `N/A` and an absent email to
the empty string. -/
theorem c7_filing_event_info (db : List HeaderRow) (sel : HeaderSelector) :
    (db.filter (rowMatches sel) = [] →
        getFilingEventInfo db sel = Except.error "FilingNotFoundException")
    ∧ (sel.event_id = none → ∀ info, getFilingEventInfo db sel = Except.ok info →
        ∃ r, r ∈ db ∧ rowMatches sel r = true ∧ info = deriveEventInfo r
          ∧ ∀ b ∈ db, rowMatches sel b = true →
              b.event_timestmp ≤ r.event_timestmp)
    ∧ (∀ e, sel.event_id = some e → ∀ info, getFilingEventInfo db sel = Except.ok info →
        info.event_id = e)
    ∧ (∀ r : HeaderRow, r.first_nme = none → r.middle_nme = none → r.last_nme = none →
        (deriveEventInfo r).certifiedBy = "N/A")
    ∧ (∀ r : HeaderRow, r.email_addr = none → (deriveEventInfo r).email = "") := by
  have hsel : ∀ info, getFilingEventInfo db sel = Except.ok info →
      ∃ r, r ∈ db ∧ rowMatches sel r = true ∧ info = deriveEventInfo r
        ∧ ∀ b ∈ db, rowMatches sel b = true → b.event_timestmp ≤ r.event_timestmp := by
    intro info hok
    unfold getFilingEventInfo at hok
    cases hmr : selectMostRecent (db.filter (rowMatches sel)) with
    | none => rw [hmr] at hok; cases hok
    | some r =>
        rw [hmr] at hok
        cases hok
        obtain ⟨h1, _, h3⟩ := mostRecent_fold_spec _ none r hmr
        have hrmem : r ∈ db.filter (rowMatches sel) := by
          rcases h1 with heq | hmem
          · cases heq
          · exact hmem
        refine ⟨r, (List.mem_filter.mp hrmem).1, (List.mem_filter.mp hrmem).2, rfl, ?_⟩
        intro b hb hbm
        exact h3 b (List.mem_filter.mpr ⟨hb, hbm⟩)
  refine ⟨?_, ?_, ?_, ?_, ?_⟩
  · intro hempty
    unfold getFilingEventInfo selectMostRecent
    rw [hempty]
    rfl
  · intro _ info hok
    exact hsel info hok
  · intro e he info hok
    obtain ⟨r, _, hm, hinfo, _⟩ := hsel info hok
    have : r.event_id = e := by
      unfold rowMatches at hm
      rw [he] at hm
      simp only [Bool.and_eq_true, beq_iff_eq] at hm
      exact hm.1.1
    rw [hinfo]
    exact this
  · intro r h1 h2 h3
    simp only [deriveEventInfo, joinUserName, h1, h2, h3]
    decide
  · intro r h
    simp [deriveEventInfo, h]

/-- Claim C7, witness: a two-row table where only the later row matches the
tuple selector; the query returns the later row's header, an empty table
raises not-found, an explicit event id returns that event, and the blank
row derives `N/A` and an empty email. -/
theorem c7_filing_event_info_witness :
    (getFilingEventInfo [] ⟨none, some "OTANN", some "CP1", none⟩
        = Except.error "FilingNotFoundException")
    ∧ (∃ r, r ∈ [⟨4, 10, none, none, none, none, "CP1", "OTANN", some 2001⟩,
                 ⟨9, 20, none, none, none, none, "CP1", "OTANN", some 2002⟩]
          ∧ rowMatches ⟨none, some "OTANN", some "CP1", none⟩ r = true
          ∧ deriveEventInfo (⟨9, 20, none, none, none, none, "CP1", "OTANN", some 2002⟩
              : HeaderRow) = deriveEventInfo r
          ∧ ∀ b ∈ [(⟨4, 10, none, none, none, none, "CP1", "OTANN", some 2001⟩ : HeaderRow),
                   ⟨9, 20, none, none, none, none, "CP1", "OTANN", some 2002⟩],
              rowMatches ⟨none, some "OTANN", some "CP1", none⟩ b = true →
                b.event_timestmp ≤ r.event_timestmp)
    ∧ ((deriveEventInfo (⟨4, 10, none, none, none, none, "CP1", "OTANN", some 2001⟩
          : HeaderRow)).event_id = 4)
    ∧ (deriveEventInfo (⟨4, 10, none, none, none, none, "CP1", "OTANN", some 2001⟩
          : HeaderRow)).certifiedBy = "N/A"
    ∧ (deriveEventInfo (⟨4, 10, none, none, none, none, "CP1", "OTANN", some 2001⟩
          : HeaderRow)).email = "" := by
  have h0 := c7_filing_event_info [] ⟨none, some "OTANN", some "CP1", none⟩
  have hdb := c7_filing_event_info
      [⟨4, 10, none, none, none, none, "CP1", "OTANN", some 2001⟩,
       ⟨9, 20, none, none, none, none, "CP1", "OTANN", some 2002⟩]
      ⟨none, some "OTANN", some "CP1", none⟩
  have hone := c7_filing_event_info
      [⟨4, 10, none, none, none, none, "CP1", "OTANN", some 2001⟩]
      ⟨some 4, none, some "CP1", none⟩
  refine ⟨h0.1 rfl, hdb.2.1 rfl _ rfl, hone.2.2.1 4 rfl _ rfl, ?_, ?_⟩
  · exact hdb.2.2.2.1 _ rfl rfl rfl
  · exact hdb.2.2.2.2 _ rfl

/-! ## Claim C3 — annual-report component-event resolution -/

/-- Invariant of the `_get_ar_component_event` fold: the best timestamp only
grows, dominates every qualifying event date, and the result is either the
seed or a qualifying event's id/date pair. -/
lemma arEventFold_spec (arTs : Nat) (events : List EventRec) (acc : Option Nat × Nat) :
    acc.2 ≤ (events.foldl (arEventFold arTs) acc).2
    ∧ (∀ e ∈ events, e.date ≤ arTs → e.date ≤ (events.foldl (arEventFold arTs) acc).2)
    ∧ ((events.foldl (arEventFold arTs) acc) = acc
        ∨ ∃ e ∈ events, (events.foldl (arEventFold arTs) acc).1 = some e.id
            ∧ (events.foldl (arEventFold arTs) acc).2 = e.date ∧ e.date ≤ arTs) := by
  induction events generalizing acc with
  | nil => simp
  | cons x xs ih =>
      simp only [List.foldl_cons]
      obtain ⟨ih1, ih2, ih3⟩ := ih (arEventFold arTs acc x)
      have hstep : acc.2 ≤ (arEventFold arTs acc x).2 := by
        simp only [arEventFold]
        split
        · next hcond => exact le_of_lt hcond.2
        · exact le_refl _
      refine ⟨le_trans hstep ih1, ?_, ?_⟩
      · intro e he hle
        rcases List.mem_cons.mp he with rfl | he2
        · by_cases hgt : e.date > acc.2
          · have hupd : (arEventFold arTs acc e).2 = e.date := by
              simp [arEventFold, hle, hgt]
            exact hupd ▸ ih1
          · exact le_trans (le_of_not_lt hgt) (le_trans hstep ih1)
        · exact ih2 e he2 hle
      · rcases ih3 with heq | ⟨e, he, h1, h2, h3⟩
        · rw [heq]
          unfold arEventFold
          split
          · next hcond =>
              exact Or.inr ⟨x, List.mem_cons_self _ _, rfl, rfl, hcond.1⟩
          · exact Or.inl rfl
        · exact Or.inr ⟨e, List.mem_cons_of_mem _ he, h1, h2, h3⟩

/-- Claim C3: reconstructing an annual report reads offices/directors as of
the latest component-change event whose timestamp is at or before the
annual report's own timestamp (so between two historical change events the
immediately preceding one is selected), and when that event yields no rows
the component is read from current state with `paperOnly = true`. -/
theorem c3_ar_component_resolution {α : Type} (events : List EventRec)
    (arTs arEventId : Nat) (estar : EventRec) (byEvent : Nat → List α)
    (current : List α) (err : ComponentErr)
    (hmem : estar ∈ events) (hpos : 0 < estar.date) (hle : estar.date ≤ arTs)
    (hmax : ∀ e ∈ events, e.date ≤ arTs → e.date ≤ estar.date)
    (huniq : ∀ e ∈ events, e.date ≤ arTs → e.date = estar.date → e.id = estar.id) :
    getArComponentEvent events arTs arEventId = estar.id
    ∧ (byEvent estar.id = [] →
        resolveArComponent true events arTs arEventId byEvent current err
          = Except.ok (current, true))
    ∧ (∀ x l, byEvent estar.id = x :: l →
        resolveArComponent true events arTs arEventId byEvent current err
          = Except.ok (x :: l, false)) := by
  obtain ⟨_, hdom, hprov⟩ := arEventFold_spec arTs events (none, 0)
  have hds : estar.date ≤ (events.foldl (arEventFold arTs) (none, 0)).2 :=
    hdom estar hmem hle
  have hsel : getArComponentEvent events arTs arEventId = estar.id := by
    rcases hprov with heq | ⟨e, he, h1, h2, h3⟩
    · rw [heq] at hds
      exact absurd hds (by simpa using Nat.not_le_of_lt hpos)
    · have hEd : e.date = estar.date := le_antisymm (hmax e he h3) (h2 ▸ hds)
      have hid : e.id = estar.id := huniq e he h3 hEd
      unfold getArComponentEvent
      rw [h1]
      exact hid
  refine ⟨hsel, ?_, ?_⟩
  · intro hempty
    unfold resolveArComponent
    rw [hsel]
    simp [hempty]
  · intro x l hcons
    unfold resolveArComponent
    rw [hsel]
    simp [hcons]

/-- Claim C3, witness: office-change events at timestamps 10 and 30, an
annual report at timestamp 20 — the event at 10 is selected; when it has
rows they are returned with `paperOnly = false`, and when the store has no
rows at all the current offices are returned with `paperOnly = true`. -/
theorem c3_ar_component_resolution_witness :
    getArComponentEvent [⟨1, 10⟩, ⟨2, 30⟩] 20 99 = 1
    ∧ resolveArComponent true [⟨1, 10⟩, ⟨2, 30⟩] 20 99
        (fun i => if i = 1 then [5] else ([] : List Nat)) [7] ComponentErr.officeNotFound
        = Except.ok ([5], false)
    ∧ resolveArComponent true [⟨1, 10⟩, ⟨2, 30⟩] 20 99
        (fun _ => ([] : List Nat)) [7] ComponentErr.officeNotFound
        = Except.ok ([7], true) := by
  have h1 := c3_ar_component_resolution [⟨1, 10⟩, ⟨2, 30⟩] 20 99 ⟨1, 10⟩
      (fun i => if i = 1 then [5] else ([] : List Nat)) [7] ComponentErr.officeNotFound
      (by decide) (by decide) (by decide) (by decide) (by decide)
  have h2 := c3_ar_component_resolution [⟨1, 10⟩, ⟨2, 30⟩] 20 99 ⟨1, 10⟩
      (fun _ => ([] : List Nat)) [7] ComponentErr.officeNotFound
      (by decide) (by decide) (by decide) (by decide) (by decide)
  exact ⟨h1.1, h1.2.2 5 [] (by decide), h2.2.1 (by decide)⟩

/-! ## Claims C2 and C10 — director diff -/

/-- The director loop distributes over list append. -/
lemma dirLoop_append (eventId : Nat) (acc : DirAcc) (xs ys : List Director) :
    dirLoop eventId acc (xs ++ ys)
      = (match dirLoop eventId acc xs with
         | .error e => .error e
         | .ok acc2 => dirLoop eventId acc2 ys) := by
  induction xs generalizing acc with
  | nil => simp [dirLoop]
  | cons d rest ih =>
      simp only [List.cons_append, dirLoop]
      cases dirStep eventId acc d with
      | error e => rfl
      | ok acc2 => exact ih acc2

/-- The `appointed` adjustment decomposed by field. -/
lemma dirAppointed_parts (eventId : Nat) (acc : DirAcc) (d : Director) :
    (dirAppointed eventId acc d).parties = dirSnapshot acc d
    ∧ (dirAppointed eventId acc d).changed = acc.changed
    ∧ (dirAppointed eventId acc d).ops
        = (if d.actions.contains "appointed" then
            acc.ops ++ [DirOp.createParty eventId d]
          else acc.ops) := by
  by_cases h : "appointed" ∈ d.actions <;>
    simp [dirAppointed, dirSnapshot, h]

lemma dirMatchFold (eventId : Nat) (d : Director) (snapshot : List Party)
    (st : DirAcc × Bool) :
    snapshot.foldl (dirMatchStep eventId d) st
      = ({ parties := if snapshot.any (fun p => compareParties p d.officer) then
               st.1.parties.filter (fun q => !(compareParties q d.officer))
             else st.1.parties,
           ops := st.1.ops ++ List.replicate
               (2 * (snapshot.filter (fun p => compareParties p d.officer)).length)
               (DirOp.endByName eventId d),
           changed := st.1.changed ++ List.replicate
               ((snapshot.filter (fun p => compareParties p d.officer)).length) d },
         st.2 || snapshot.any (fun p => compareParties p d.officer)) := by
  induction snapshot generalizing st with
  | nil => simp
  | cons p ps ih =>
      simp only [List.foldl_cons]
      rw [ih]
      by_cases h : compareParties p d.officer = true
      · have hst : dirMatchStep eventId d st p
            = ({ parties := st.1.parties.filter (fun q => !(compareParties q d.officer)),
                 ops := st.1.ops ++ [DirOp.endByName eventId d, DirOp.endByName eventId d],
                 changed := st.1.changed ++ [d] }, true) := by
          simp [dirMatchStep, h]
        rw [hst]
        have hff : (st.1.parties.filter (fun q => !(compareParties q d.officer))).filter
              (fun q => !(compareParties q d.officer))
            = st.1.parties.filter (fun q => !(compareParties q d.officer)) := by
          rw [List.filter_filter]
          exact List.filter_congr (fun a _ => by cases compareParties a d.officer <;> rfl)
        have harith : 2 * ((ps.filter (fun p => compareParties p d.officer)).length + 1)
            = 2 + 2 * (ps.filter (fun p => compareParties p d.officer)).length := by
          omega
        simp only [List.any_cons, h, Bool.true_or, List.filter_cons_of_pos,
          List.length_cons, harith, List.replicate_add, Bool.or_true,
          eq_self_iff_true, if_true, Prod.mk.injEq, DirAcc.mk.injEq]
        refine ⟨⟨?_, ?_, ?_⟩, trivial⟩
        · cases hps : ps.any (fun p => compareParties p d.officer) <;> simp [hff]
        · simp [List.append_assoc, List.replicate]
        · rw [List.append_assoc, show List.replicate 1 d = [d] from rfl,
            ← List.replicate_succ']
          exact rfl
      · have hf : compareParties p d.officer = false := by
          simpa using h
        have hst : dirMatchStep eventId d st p = st := by
          simp [dirMatchStep, hf]
        rw [hst]
        simp [List.any_cons, hf, List.filter_cons_of_neg, Bool.false_or]

/-- Closed form of a changed-action entry: the matched snapshot rows are
ended (twice each) and staged; no match raises the 404 error. -/
lemma dirStep_changed (eventId : Nat) (acc0 : DirAcc) (d : Director)
    (hchg : hasChangedAction d = true) :
    dirStep eventId acc0 d
      = (if (dirSnapshot acc0 d).any (fun p => compareParties p d.officer) then
          Except.ok
            { parties := (dirSnapshot acc0 d).filter
                (fun q => !(compareParties q d.officer)),
              ops := (dirAppointed eventId acc0 d).ops
                  ++ List.replicate
                      (2 * ((dirSnapshot acc0 d).filter
                          (fun p => compareParties p d.officer)).length)
                      (DirOp.endByName eventId d),
              changed := acc0.changed ++ List.replicate
                  (((dirSnapshot acc0 d).filter
                      (fun p => compareParties p d.officer)).length) d }
         else Except.error (DirErr.generic d.officer 404)) := by
  obtain ⟨hp, hc, _⟩ := dirAppointed_parts eventId acc0 d
  unfold dirStep
  rw [if_neg (by rw [hchg]; simp), if_pos hchg]
  rw [dirMatchFold, hp, hc]
  by_cases hany : (dirSnapshot acc0 d).any (fun p => compareParties p d.officer) = true
  · rw [hany]
    rfl
  · have hf : (dirSnapshot acc0 d).any (fun p => compareParties p d.officer) = false := by
      simpa using hany
    rw [hf]
    rfl

/-- Claim C2: for a director entry of a non-annual-report filing carrying a
`nameChanged`/`addressChanged` action, reached with current-party state
`acc` after the earlier entries: when no current party (including a row the
entry's own `appointed` action just created) matches the old officer values
under the compare predicate, the whole director processing fails with
`GenericException` HTTP 404; when a match exists the step succeeds, the
matched row is ended by name at the new event and the entry is staged in
`changed_dirs`; and on success the trace of the whole routine is the loop's
calls followed by the staged re-creations, so every replacement row is
created only after all entries have been processed. -/
theorem c2_director_diff (f : DirFiling) (currentParties : List Party)
    (pre : List Director) (d : Director) (rest : List Director) (acc : DirAcc)
    (hty : f.filingType ≠ "annualReport")
    (hdirs : f.directors = pre ++ d :: rest)
    (hchg : hasChangedAction d = true)
    (hpre : dirLoop f.eventId ⟨currentParties, [], []⟩ pre = Except.ok acc) :
    ((dirSnapshot acc d).all (fun p => !(compareParties p d.officer)) = true →
        processDirectors f currentParties = Except.error (DirErr.generic d.officer 404))
    ∧ ((dirSnapshot acc d).any (fun p => compareParties p d.officer) = true →
        ∃ acc2, dirStep f.eventId acc d = Except.ok acc2
          ∧ DirOp.endByName f.eventId d ∈ acc2.ops
          ∧ d ∈ acc2.changed)
    ∧ (∀ ops text, processDirectors f currentParties = Except.ok (ops, text) →
        ∃ accF, dirLoop f.eventId ⟨currentParties, [], []⟩ f.directors = Except.ok accF
          ∧ ops = accF.ops ++ accF.changed.map
              (fun d2 => DirOp.createParty f.eventId d2)) := by
  have hne : f.directors ≠ [] := by
    rw [hdirs]
    simp
  have hproc : processDirectors f currentParties
      = (match dirLoop f.eventId ⟨currentParties, [], []⟩ f.directors with
         | .error e => .error e
         | .ok accF => .ok (accF.ops ++ accF.changed.map
             (fun d2 => DirOp.createParty f.eventId d2), "Director change.")) := by
    unfold processDirectors
    rw [if_pos ⟨hty, hne⟩]
  refine ⟨?_, ?_, ?_⟩
  · intro hall
    have hany : (dirSnapshot acc d).any (fun p => compareParties p d.officer) = false := by
      cases hx : (dirSnapshot acc d).any (fun p => compareParties p d.officer) with
      | false => rfl
      | true =>
          obtain ⟨p, hp, hcp⟩ := List.any_eq_true.mp hx
          have h2 := List.all_eq_true.mp hall p hp
          rw [hcp] at h2
          simp at h2
    have hstep : dirStep f.eventId acc d = Except.error (DirErr.generic d.officer 404) := by
      rw [dirStep_changed f.eventId acc d hchg, if_neg (by simp [hany])]
    have hloop : dirLoop f.eventId ⟨currentParties, [], []⟩ f.directors
        = Except.error (DirErr.generic d.officer 404) := by
      rw [hdirs, dirLoop_append, hpre]
      show dirLoop f.eventId acc (d :: rest) = _
      unfold dirLoop
      rw [hstep]
    rw [hproc, hloop]
  · intro hany
    rw [dirStep_changed f.eventId acc d hchg, if_pos hany]
    have hk : 0 < ((dirSnapshot acc d).filter
        (fun p => compareParties p d.officer)).length := by
      obtain ⟨p, hp, hcp⟩ := List.any_eq_true.mp hany
      exact List.length_pos.mpr (List.ne_nil_of_mem (List.mem_filter.mpr ⟨hp, hcp⟩))
    refine ⟨_, rfl, ?_, ?_⟩
    · apply List.mem_append_right
      exact List.mem_replicate.mpr ⟨by omega, rfl⟩
    · apply List.mem_append_right
      exact List.mem_replicate.mpr ⟨by omega, rfl⟩
  · intro ops text hok
    rw [hproc] at hok
    cases hloop : dirLoop f.eventId ⟨currentParties, [], []⟩ f.directors with
    | error e => rw [hloop] at hok; cases hok
    | ok accF =>
        rw [hloop] at hok
        cases hok
        exact ⟨accF, rfl, rfl⟩

/-- Claim C2, witness: an unmatched name change fails with the 404 error;
a matched one ends the old row and stages the replacement. -/
theorem c2_director_diff_witness :
    processDirectors ⟨"changeOfDirectors", 9, [⟨⟨"Ghost", "G2"⟩, ["nameChanged"]⟩]⟩
        [⟨"Old"⟩] = Except.error (DirErr.generic ⟨"Ghost", "G2"⟩ 404)
    ∧ ∃ acc2, dirStep 9 ⟨[⟨"Old"⟩], [], []⟩ ⟨⟨"Old", "New"⟩, ["nameChanged"]⟩
        = Except.ok acc2
        ∧ DirOp.endByName 9 ⟨⟨"Old", "New"⟩, ["nameChanged"]⟩ ∈ acc2.ops
        ∧ (⟨⟨"Old", "New"⟩, ["nameChanged"]⟩ : Director) ∈ acc2.changed := by
  have h1 := c2_director_diff ⟨"changeOfDirectors", 9, [⟨⟨"Ghost", "G2"⟩, ["nameChanged"]⟩]⟩
      [⟨"Old"⟩] [] ⟨⟨"Ghost", "G2"⟩, ["nameChanged"]⟩ [] ⟨[⟨"Old"⟩], [], []⟩
      (by decide) rfl (by decide) rfl
  have h2 := c2_director_diff ⟨"changeOfDirectors", 9, [⟨⟨"Old", "New"⟩, ["nameChanged"]⟩]⟩
      [⟨"Old"⟩] [] ⟨⟨"Old", "New"⟩, ["nameChanged"]⟩ [] ⟨[⟨"Old"⟩], [], []⟩
      (by decide) rfl (by decide) rfl
  exact ⟨h1.1 (by decide), h2.2.1 (by decide)⟩

/-- Claim C10: a matched changed-action entry triggers `end_director_by_name`
exactly twice per matching current party (the call is duplicated in the
match branch), and an entry that also carries `appointed` gets a row created
by the appointed branch before the match scan plus one more from the staged
re-creation — two creations for one director within one event. -/
theorem c10_duplicated_director_calls (f : DirFiling) (currentParties : List Party)
    (acc : DirAcc) (d : Director)
    (hchg : hasChangedAction d = true) :
    (∀ acc2, dirStep f.eventId acc d = Except.ok acc2 →
        1 ≤ ((dirSnapshot acc d).filter (fun p => compareParties p d.officer)).length
        ∧ acc2.ops = (dirAppointed f.eventId acc d).ops
            ++ List.replicate
                (2 * ((dirSnapshot acc d).filter
                    (fun p => compareParties p d.officer)).length)
                (DirOp.endByName f.eventId d))
    ∧ (f.filingType ≠ "annualReport" → f.directors = [d] →
        d.actions.contains "appointed" = true →
        0 < ((currentParties ++ [partyOf d]).filter
            (fun p => compareParties p d.officer)).length →
        processDirectors f currentParties
          = Except.ok
              (DirOp.createParty f.eventId d
                :: (List.replicate
                      (2 * ((currentParties ++ [partyOf d]).filter
                          (fun p => compareParties p d.officer)).length)
                      (DirOp.endByName f.eventId d)
                   ++ List.replicate
                       (((currentParties ++ [partyOf d]).filter
                           (fun p => compareParties p d.officer)).length)
                       (DirOp.createParty f.eventId d)),
               "Director change.")) := by
  refine ⟨?_, ?_⟩
  · intro acc2 hok
    rw [dirStep_changed f.eventId acc d hchg] at hok
    by_cases hany : (dirSnapshot acc d).any (fun p => compareParties p d.officer) = true
    · rw [if_pos hany] at hok
      cases hok
      refine ⟨?_, rfl⟩
      obtain ⟨p, hp, hcp⟩ := List.any_eq_true.mp hany
      have hmemf : p ∈ (dirSnapshot acc d).filter (fun q => compareParties q d.officer) :=
        List.mem_filter.mpr ⟨hp, hcp⟩
      have := List.length_pos.mpr (List.ne_nil_of_mem hmemf)
      omega
    · rw [if_neg hany] at hok
      cases hok
  · intro hty hdirs happ hk
    have hne : f.directors ≠ [] := by
      rw [hdirs]
      simp
    have hsnap : dirSnapshot (⟨currentParties, [], []⟩ : DirAcc) d
        = currentParties ++ [partyOf d] := by
      unfold dirSnapshot
      rw [if_pos happ]
    have hany : (dirSnapshot (⟨currentParties, [], []⟩ : DirAcc) d).any
        (fun p => compareParties p d.officer) = true := by
      rw [hsnap]
      rcases hx : (currentParties ++ [partyOf d]).filter
          (fun p => compareParties p d.officer) with _ | ⟨q, l⟩
      · rw [hx] at hk
        simp at hk
      · have hqmem := List.mem_filter.mp (hx ▸ List.mem_cons_self q l)
        exact List.any_eq_true.mpr ⟨q, hqmem.1, hqmem.2⟩
    have happops : (dirAppointed f.eventId (⟨currentParties, [], []⟩ : DirAcc) d).ops
        = [DirOp.createParty f.eventId d] := by
      unfold dirAppointed
      rw [if_pos happ]
      rfl
    have hstep := dirStep_changed f.eventId ⟨currentParties, [], []⟩ d hchg
    rw [if_pos hany] at hstep
    have hone : ∀ (a : DirAcc), dirLoop f.eventId a [d] = dirStep f.eventId a d := by
      intro a
      show (match dirStep f.eventId a d with
            | .error e => Except.error e
            | .ok acc2 => dirLoop f.eventId acc2 []) = dirStep f.eventId a d
      cases dirStep f.eventId a d <;> rfl
    unfold processDirectors
    rw [if_pos ⟨hty, hne⟩, hdirs, hone, hstep]
    dsimp only
    rw [hsnap, happops]
    simp [List.map_replicate, List.append_assoc]

/-- Claim C10, witness: one current director `Old`, one incoming entry
`appointed + nameChanged` matching it — the trace holds two `endByName`
calls and two `createParty` calls for that director in event 9. -/
theorem c10_duplicated_director_calls_witness :
    processDirectors ⟨"changeOfDirectors", 9,
        [⟨⟨"Old", "New"⟩, ["appointed", "nameChanged"]⟩]⟩ [⟨"Old"⟩]
      = Except.ok
          ([DirOp.createParty 9 ⟨⟨"Old", "New"⟩, ["appointed", "nameChanged"]⟩,
            DirOp.endByName 9 ⟨⟨"Old", "New"⟩, ["appointed", "nameChanged"]⟩,
            DirOp.endByName 9 ⟨⟨"Old", "New"⟩, ["appointed", "nameChanged"]⟩,
            DirOp.createParty 9 ⟨⟨"Old", "New"⟩, ["appointed", "nameChanged"]⟩],
           "Director change.") := by
  have h := (c10_duplicated_director_calls
      ⟨"changeOfDirectors", 9, [⟨⟨"Old", "New"⟩, ["appointed", "nameChanged"]⟩]⟩
      [⟨"Old"⟩] ⟨[⟨"Old"⟩], [], []⟩ ⟨⟨"Old", "New"⟩, ["appointed", "nameChanged"]⟩
      (by decide)).2 (by decide) rfl (by decide) (by decide)
  exact h

end ColinFiling
